import Mathlib

/-!
Shallow embedding of the completion relay in `src/api/src/lib.rs` and the
generic error translator in `src/api/src/main.rs`.

Strings are modelled by Lean `String` (a structure over `List Char`); the
tokenizer models Rust's `str::split_whitespace` using `Char.isWhitespace`.
-/

namespace Relay

/-- Whitespace test used by the tokenizer, modelling `char::is_whitespace`
on the characters that occur in completion texts. -/
def isWS (c : Char) : Bool := c.isWhitespace

/-- Tokenizer over the character list of a string: models
`str::split_whitespace` from `ai_response.split_whitespace()` in
`stream_ai_response` (lib.rs line 67) — maximal runs of non-whitespace
characters, with all whitespace discarded. -/
def splitWhitespace : List Char → List (List Char)
  | [] => []
  | c :: cs =>
    if isWS c then splitWhitespace cs
    else
      match cs with
      | [] => [[c]]
      | c2 :: _ =>
        if isWS c2 then [c] :: splitWhitespace cs
        else
          match splitWhitespace cs with
          | [] => [[c]]
          | w :: ws => (c :: w) :: ws

/-- The whitespace-delimited words of a text, as strings:
`let words: Vec<&str> = ai_response.split_whitespace().collect()`. -/
def words (text : String) : List String :=
  (splitWhitespace text.data).map String.mk

/-- Fixed-size grouping into runs of three, modelling `words.chunks(3)`
(lib.rs line 69): every chunk nonempty, all but possibly the last of
length 3, in order. -/
def chunks3 : List α → List (List α)
  | [] => []
  | [a] => [[a]]
  | [a, b] => [[a, b]]
  | a :: b :: c :: rest => [a, b, c] :: chunks3 rest

/-- `chunk_words.join(" ")` (lib.rs line 73): join with single spaces. -/
def joinSpace : List String → String
  | [] => ""
  | [w] => w
  | w :: ws => w ++ " " ++ joinSpace ws

/-- One content frame: `format!("data: {}\n\n", chunk_text)` (lib.rs line 74). -/
def frameOf (chunk_words : List String) : String :=
  "data: " ++ joinSpace chunk_words ++ "\n\n"

/-- The content frames of a text, in chunk order (lib.rs lines 67-76). -/
def contentFrames (text : String) : List String :=
  (chunks3 (words text)).map frameOf

/-- The terminal sentinel frame appended at lib.rs line 79. -/
def sentinelFrame : String := "data: [DONE]\n\n"

/-- The full frame sequence: content frames followed by the sentinel. -/
def framesSeq (text : String) : List String :=
  contentFrames text ++ [sentinelFrame]

/-- The buffered response body:
`format!("{}data: [DONE]\n\n", chunks)` (lib.rs line 79). -/
def framedBody (text : String) : String :=
  String.join (contentFrames text) ++ sentinelFrame

/-- Payload extraction from a frame: strip the 6-character prefix
`"data: "` and the 2-character suffix `"\n\n"`. -/
def framePayload (f : String) : String :=
  String.mk ((f.data.drop 6).take (f.data.length - 8))

/-- Character-list counterpart of `joinSpace`, for tokenizer proofs. -/
def joinSp : List (List Char) → List Char
  | [] => []
  | [w] => w
  | w :: ws => w ++ ' ' :: joinSp ws

theorem splitWhitespace_cons_ws (c : Char) (cs : List Char) (h : isWS c = true) :
    splitWhitespace (c :: cs) = splitWhitespace cs := by
  simp [splitWhitespace, h]

theorem splitWhitespace_cons_not :
    ∀ (cs : List Char) (c : Char), isWS c = false →
      splitWhitespace (c :: cs) =
        (c :: cs.takeWhile (fun x => !isWS x)) ::
          splitWhitespace (cs.dropWhile (fun x => !isWS x))
  | [], c, h => by simp [splitWhitespace, h]
  | c2 :: cs2, c, h => by
    by_cases h2 : isWS c2
    · rw [splitWhitespace.eq_def]
      simp [h, h2, List.takeWhile_cons, List.dropWhile_cons]
    · have hb : isWS c2 = false := by simpa using h2
      have ih := splitWhitespace_cons_not cs2 c2 hb
      rw [splitWhitespace.eq_def]
      simp only [h, Bool.false_eq_true, if_false, hb, ih, List.takeWhile_cons,
        List.dropWhile_cons, Bool.not_false, if_true]

theorem length_dropTok_le (l : List Char) :
    (l.dropWhile (fun x => !isWS x)).length ≤ l.length := by
  induction l with
  | nil => simp [List.dropWhile]
  | cons c cs ih =>
    by_cases h : isWS c
    · simp [List.dropWhile_cons, h]
    · simp [List.dropWhile_cons, h]
      omega

/-- Every token produced by the tokenizer is nonempty and whitespace-free. -/
theorem splitWhitespace_tokens :
    ∀ l : List Char, ∀ w ∈ splitWhitespace l, w ≠ [] ∧ ∀ c ∈ w, isWS c = false
  | [] => by simp [splitWhitespace]
  | c :: cs => by
    by_cases h : isWS c
    · rw [splitWhitespace_cons_ws c cs h]
      exact splitWhitespace_tokens cs
    · have hb : isWS c = false := by simpa using h
      rw [splitWhitespace_cons_not cs c hb]
      intro w hw
      rcases List.mem_cons.mp hw with hw | hw
      · subst hw
        refine ⟨by simp, ?_⟩
        intro x hx
        rcases List.mem_cons.mp hx with hx | hx
        · subst hx; exact hb
        · have := List.mem_takeWhile_imp hx
          simpa using this
      · exact splitWhitespace_tokens (cs.dropWhile (fun x => !isWS x)) w hw
  termination_by l => l.length
  decreasing_by
    · simp
    · simpa using Nat.lt_succ_of_le (length_dropTok_le cs)

theorem splitWhitespace_single (w : List Char) (hne : w ≠ [])
    (hws : ∀ c ∈ w, isWS c = false) : splitWhitespace w = [w] := by
  cases w with
  | nil => exact absurd rfl hne
  | cons c cs =>
    rw [splitWhitespace_cons_not cs c (hws c (by simp))]
    have htake : cs.takeWhile (fun x => !isWS x) = cs :=
      List.takeWhile_eq_self_iff.mpr (by
        intro x hx
        simp [hws x (List.mem_cons_of_mem c hx)])
    have hdrop : cs.dropWhile (fun x => !isWS x) = [] :=
      List.dropWhile_eq_nil_iff.mpr (by
        intro x hx
        simp [hws x (List.mem_cons_of_mem c hx)])
    rw [htake, hdrop]
    simp [splitWhitespace]

/-- Splitting a space-joined list of nonempty whitespace-free tokens
recovers exactly those tokens. -/
theorem splitWhitespace_joinSp :
    ∀ ws : List (List Char),
      (∀ w ∈ ws, w ≠ [] ∧ ∀ c ∈ w, isWS c = false) →
      splitWhitespace (joinSp ws) = ws
  | [], _ => by simp [joinSp, splitWhitespace]
  | [w], h => by
    rw [joinSp]
    exact splitWhitespace_single w (h w (by simp)).1 (h w (by simp)).2
  | w :: w2 :: rest, h => by
    have hw := h w (by simp)
    obtain ⟨hne, hws⟩ := hw
    cases w with
    | nil => exact absurd rfl hne
    | cons c cs =>
      have hcs : ∀ x ∈ cs, isWS x = false := by
        intro x hx; exact hws x (List.mem_cons_of_mem c hx)
      show splitWhitespace (c :: (cs ++ ' ' :: joinSp (w2 :: rest))) = _
      rw [splitWhitespace_cons_not _ c (hws c (by simp))]
      have htake :
          (cs ++ ' ' :: joinSp (w2 :: rest)).takeWhile (fun x => !isWS x) = cs := by
        rw [List.takeWhile_append_of_pos (by intro x hx; simp [hcs x hx])]
        simp [List.takeWhile_cons, isWS]
      have hdrop :
          (cs ++ ' ' :: joinSp (w2 :: rest)).dropWhile (fun x => !isWS x) =
            ' ' :: joinSp (w2 :: rest) := by
        rw [List.dropWhile_append_of_pos (by intro x hx; simp [hcs x hx])]
        simp [List.dropWhile_cons, isWS]
      rw [htake, hdrop, splitWhitespace_cons_ws _ _ (by simp [isWS])]
      rw [splitWhitespace_joinSp (w2 :: rest) (by
        intro u hu; exact h u (List.mem_cons_of_mem _ hu))]

theorem chunks3_join : ∀ l : List α, (chunks3 l).flatten = l
  | [] => by simp [chunks3]
  | [a] => by simp [chunks3]
  | [a, b] => by simp [chunks3]
  | a :: b :: c :: rest => by
    simp [chunks3, chunks3_join rest]

theorem chunks3_length : ∀ l : List α, (chunks3 l).length = (l.length + 2) / 3
  | [] => by simp [chunks3]
  | [a] => by simp [chunks3]
  | [a, b] => by simp [chunks3]
  | a :: b :: c :: rest => by
    simp only [chunks3, List.length_cons, chunks3_length rest]
    omega

theorem chunks3_mem : ∀ l : List α, ∀ c ∈ chunks3 l, c ≠ [] ∧ c.length ≤ 3
  | [] => by simp [chunks3]
  | [a] => by simp [chunks3]
  | [a, b] => by simp [chunks3]
  | a :: b :: c :: rest => by
    intro ch hch
    rcases List.mem_cons.mp hch with hch | hch
    · subst hch; exact ⟨by simp, by simp⟩
    · exact chunks3_mem rest ch hch

theorem joinSpace_data :
    ∀ ws : List String, (joinSpace ws).data = joinSp (ws.map String.data)
  | [] => rfl
  | [w] => rfl
  | w :: w2 :: rest => by
    show (w ++ " " ++ joinSpace (w2 :: rest)).data = _
    rw [String.data_append, String.data_append, joinSpace_data (w2 :: rest)]
    show w.data ++ [' '] ++ joinSp ((w2 :: rest).map String.data) =
      joinSp (w.data :: (w2 :: rest).map String.data)
    simp [joinSp, List.append_assoc]

theorem mk_data (s : String) : String.mk s.data = s := rfl

theorem words_mk (l : List Char) :
    words (String.mk l) = (splitWhitespace l).map String.mk := rfl

/-- Every word of a text is a nonempty, whitespace-free string. -/
theorem words_tokens (text : String) :
    ∀ s ∈ words text, s.data ≠ [] ∧ ∀ c ∈ s.data, isWS c = false := by
  intro s hs
  rcases List.mem_map.mp hs with ⟨w, hw, rfl⟩
  exact splitWhitespace_tokens text.data w hw

/-- Splitting a space-joined chunk of nonempty whitespace-free words
recovers exactly that chunk. -/
theorem words_joinSpace (c : List String)
    (hc : ∀ s ∈ c, s.data ≠ [] ∧ ∀ ch ∈ s.data, isWS ch = false) :
    words (joinSpace c) = c := by
  show (splitWhitespace (joinSpace c).data).map String.mk = c
  rw [joinSpace_data, splitWhitespace_joinSp (c.map String.data) (by
    intro w hw
    rcases List.mem_map.mp hw with ⟨s, hs, rfl⟩
    exact hc s hs)]
  rw [List.map_map]
  have hid : String.mk ∘ String.data = id := rfl
  rw [hid, List.map_id]

theorem framePayload_frameOf (c : List String) :
    framePayload (frameOf c) = joinSpace c := by
  show String.mk _ = _
  have hdata : (frameOf c).data =
      ("data: ").data ++ ((joinSpace c).data ++ ("\n\n").data) := by
    show (("data: " ++ joinSpace c) ++ "\n\n").data = _
    rw [String.data_append, String.data_append, List.append_assoc]
  have hlen6 : (("data: " : String)).data.length = 6 := rfl
  have hdrop : (frameOf c).data.drop 6 = (joinSpace c).data ++ ("\n\n").data := by
    rw [hdata, ← hlen6, List.drop_left]
  have hlen : (frameOf c).data.length - 8 = (joinSpace c).data.length := by
    rw [hdata]
    simp [List.length_append]
  rw [hdrop, hlen, List.take_left]

end Relay

namespace Relay

/-- JSON values, modelling `serde_json::Value` restricted to integer
numbers (the numeric shapes exercised by this service). An object is the
key-value list of the underlying map in iteration order. -/
inductive Json where
  | null : Json
  | bool : Bool → Json
  | num : Int → Json
  | str : String → Json
  | arr : List Json → Json
  | obj : List (String × Json) → Json

/-- Lower-case hex digit, for JSON control-character escapes. -/
def hexDigit (n : Nat) : Char :=
  if n < 10 then Char.ofNat (48 + n) else Char.ofNat (87 + n)

/-- Escape of one character inside a JSON string literal, modelling
serde_json's writer: `"` and `\` escaped, shorthands for the usual
control characters, `\u00XX` for the remaining control characters. -/
def escapeChar (c : Char) : String :=
  if c = '"' then "\\\""
  else if c = '\\' then "\\\\"
  else if c = Char.ofNat 8 then "\\b"
  else if c = Char.ofNat 12 then "\\f"
  else if c = '\n' then "\\n"
  else if c = '\r' then "\\r"
  else if c = '\t' then "\\t"
  else if c.toNat < 32 then
    String.mk ['\\', 'u', '0', '0', hexDigit (c.toNat / 16), hexDigit (c.toNat % 16)]
  else String.mk [c]

/-- Escape of a full string body for JSON serialization. -/
def escapeString (s : String) : String :=
  String.join (s.data.map escapeChar)

mutual

/-- Compact serialization, modelling the `Display` instance of
`serde_json::Value` used by `format!("AI Response: {}", result)`. -/
def Json.serialize : Json → String
  | .null => "null"
  | .bool true => "true"
  | .bool false => "false"
  | .num n => toString n
  | .str s => "\"" ++ escapeString s ++ "\""
  | .arr xs => "[" ++ serializeArr xs ++ "]"
  | .obj fs => "\x7b" ++ serializeObj fs ++ "\x7d"

/-- Comma-separated serialization of array elements. -/
def serializeArr : List Json → String
  | [] => ""
  | [x] => Json.serialize x
  | x :: xs => Json.serialize x ++ "," ++ serializeArr xs

/-- Comma-separated serialization of object fields. -/
def serializeObj : List (String × Json) → String
  | [] => ""
  | [(k, v)] => "\"" ++ escapeString k ++ "\":" ++ Json.serialize v
  | (k, v) :: fs =>
    "\"" ++ escapeString k ++ "\":" ++ Json.serialize v ++ "," ++ serializeObj fs

end

/-- First-match field lookup in an object's field list (parsed maps have
unique keys, so this models `serde_json::Map::get`). -/
def getField : List (String × Json) → String → Option Json
  | [], _ => none
  | (k, v) :: fs, key => if k = key then some v else getField fs key

/-- Models `serde_json::Value::get(key)`: a field for objects, `None` for
every other shape. -/
def Json.get : Json → String → Option Json
  | .obj fs, key => getField fs key
  | _, _ => none

/-- Models `serde_json::Value::as_str`. -/
def Json.asStr : Json → Option String
  | .str s => some s
  | _ => none

/-- The raw upstream reply consumed by the interpreter. `parsed` records
the outcome of `serde_json::from_str::<serde_json::Value>(&bodyText)`:
`none` models a parse failure, `some json` a successful parse. -/
structure UpstreamResponse where
  status_code : Nat
  bodyText : String
  parsed : Option Json

/-- The response-interpretation stage of `get_ai_response`
(lib.rs lines 127-153): status check, then the layered JSON fallback. -/
def interpretResponse (response : UpstreamResponse) : String :=
  if response.status_code = 200 then
    match response.parsed with
    | some json =>
      match json.get "result" with
      | some result =>
        match (result.get "response").bind Json.asStr with
        | some response_text => response_text
        | none => "AI Response: " ++ result.serialize
      | none => "Full API Response: " ++ json.serialize
    | none => response.bodyText
  else
    "API request failed with status " ++ toString response.status_code ++
      ": " ++ response.bodyText

/-- The two configuration lookups of `get_ai_response` (lib.rs lines
94-104): `none` models `env.var(..)` returning `Err`. -/
structure Env where
  cloudflare_account_id : Option String
  cloudflare_api_token : Option String
deriving DecidableEq

/-- Outcome of `Fetch::Request(request).send().await` (lib.rs line 125):
either a transport-level fault (the `?` propagates it) or a buffered
upstream response. -/
inductive FetchOutcome where
  | transportError : FetchOutcome
  | response : UpstreamResponse → FetchOutcome

/-- Result of one `get_ai_response` run: the `worker::Result<String>`
value (`Except.error` models the propagated transport fault) together
with the number of upstream network calls issued. -/
structure RelayCall where
  result : Except Unit String
  networkCalls : Nat

/-- `get_ai_response` (lib.rs lines 92-154): credential resolution with
short-circuit degradation messages, one upstream fetch, then response
interpretation. -/
def get_ai_response (env : Env) (fetch : FetchOutcome) : RelayCall :=
  match env.cloudflare_account_id with
  | none => ⟨.ok "Error: CLOUDFLARE_ACCOUNT_ID environment variable not set", 0⟩
  | some _ =>
    match env.cloudflare_api_token with
    | none => ⟨.ok "Error: CLOUDFLARE_API_TOKEN environment variable not set", 0⟩
    | some _ =>
      match fetch with
      | .transportError => ⟨.error (), 1⟩
      | .response r => ⟨.ok (interpretResponse r), 1⟩

/-- The HTTP response assembled by `stream_ai_response`
(status of `Response::ok` plus the Content-Type header set at
lib.rs line 82, and the body). -/
structure SseResponse where
  status : Nat
  contentType : String
  body : String
deriving DecidableEq

/-- `stream_ai_response` (lib.rs lines 63-88): run `get_ai_response`
(propagating only its hard error) and emit the framed body as a
200 `text/event-stream` response. -/
def stream_ai_response (env : Env) (fetch : FetchOutcome) : Except Unit SseResponse :=
  match (get_ai_response env fetch).result with
  | .error e => .error e
  | .ok ai_response => .ok ⟨200, "text/event-stream", framedBody ai_response⟩

/-- `generic_error_handler` (main.rs lines 41-63): label/description per
status code, then a JSON body that echoes the original status. Serde's
`json!` object here serializes its keys in sorted order
(error, message, status), matching the field list below. -/
def generic_error_handler (status_code : Nat) : Nat × Json :=
  let pair :=
    if status_code = 404 then ("Not Found", "The requested resource was not found")
    else if status_code = 500 then ("Internal Server Error", "An unexpected error occurred")
    else if status_code = 400 then ("Bad Request", "The request was invalid")
    else ("Error", "An error occurred")
  (status_code,
    Json.obj [("error", Json.str pair.1), ("message", Json.str pair.2),
      ("status", Json.num (Int.ofNat status_code))])

end Relay


namespace Relay

theorem data_append_ne_nil (a b : String) (h : a.data ≠ []) : (a ++ b).data ≠ [] := by
  rw [String.data_append]
  intro he
  exact h (List.append_eq_nil.mp he).1

theorem append_ne_empty_of_left (a b : String) (h : a.data ≠ []) : a ++ b ≠ "" := by
  intro he
  have hd : (a ++ b).data = [] := by rw [he]
  exact data_append_ne_nil a b h hd

/-- C1: for every input text, the framing stage emits exactly ⌈W/3⌉
content frames (W the whitespace-delimited word count), each of the form
`data: <up to 3 words joined by single spaces>\n\n`, followed by exactly
one terminal sentinel frame `data: [DONE]\n\n`; and splitting the content
frames' payloads back into tokens and concatenating them in frame order
reproduces the original token sequence. -/
theorem stream_framing_spec (T : String) :
    (contentFrames T).length = ((words T).length + 2) / 3 ∧
    framesSeq T = contentFrames T ++ [sentinelFrame] ∧
    (∀ f ∈ contentFrames T, ∃ c, c ≠ [] ∧ c.length ≤ 3 ∧ f = frameOf c) ∧
    ((contentFrames T).map (fun f => words (framePayload f))).flatten = words T := by
  refine ⟨?_, rfl, ?_, ?_⟩
  · rw [contentFrames, List.length_map, chunks3_length]
  · intro f hf
    rcases List.mem_map.mp hf with ⟨c, hc, rfl⟩
    exact ⟨c, (chunks3_mem _ c hc).1, (chunks3_mem _ c hc).2, rfl⟩
  · have hpt : ∀ c ∈ chunks3 (words T),
        ((fun f => words (framePayload f)) ∘ frameOf) c = id c := by
      intro c hc
      show words (framePayload (frameOf c)) = c
      rw [framePayload_frameOf]
      apply words_joinSpace
      intro s hs
      apply words_tokens T
      have hmem : s ∈ (chunks3 (words T)).flatten := List.mem_flatten.mpr ⟨c, hc, hs⟩
      rwa [chunks3_join] at hmem
    rw [contentFrames, List.map_map, List.map_congr_left hpt, List.map_id, chunks3_join]

theorem stream_framing_spec_witness :
    ∃ c, c ≠ [] ∧ c.length ≤ 3 ∧ "data: a b c\n\n" = frameOf c :=
  (stream_framing_spec "a b c d").2.2.1 "data: a b c\n\n" (by decide)

/-- C6: framing the empty text yields exactly one frame, the terminal
sentinel alone, with no content frames before it. -/
theorem framing_empty_text :
    framesSeq "" = [sentinelFrame] ∧ contentFrames "" = [] ∧
      framedBody "" = sentinelFrame := by
  refine ⟨rfl, rfl, ?_⟩
  decide

/-- C9: framing depends only on the whitespace-delimited token sequence
of its input: two texts with equal token sequences produce byte-identical
framed outputs. -/
theorem framing_words_congr (T1 T2 : String) (h : words T1 = words T2) :
    framedBody T1 = framedBody T2 ∧ framesSeq T1 = framesSeq T2 := by
  unfold framedBody framesSeq contentFrames
  rw [h]
  exact ⟨rfl, rfl⟩

theorem framing_words_congr_witness :
    framedBody " alpha  beta\tgamma " = framedBody "alpha beta gamma" ∧
    framesSeq " alpha  beta\tgamma " = framesSeq "alpha beta gamma" :=
  framing_words_congr " alpha  beta\tgamma " "alpha beta gamma" (by decide)

/-- C10: there is a non-empty input text — the one-word text `[DONE]` —
whose framed sequence contains a content frame byte-identical to the
terminal sentinel frame before the true terminal frame, so the sentinel
payload is not unambiguous as an end-of-stream marker. -/
theorem sentinel_frame_ambiguous :
    ∃ T : String, T ≠ "" ∧ sentinelFrame ∈ contentFrames T ∧
      framesSeq T = [sentinelFrame, sentinelFrame] :=
  ⟨"[DONE]", by decide, by decide, by decide⟩

end Relay

namespace Relay

/-- C2: for every upstream response with status 200, the interpreter
applies the ordered fallback — unparsable body returned verbatim; a
string `result.response` field returned exactly; otherwise an existing
`result` serialized behind `AI Response: `; otherwise the whole JSON
behind `Full API Response: ` — and a completion string is always
produced (never an error). -/
theorem interpret_200_fallback (r : UpstreamResponse) (h : r.status_code = 200) :
    (r.parsed = none → interpretResponse r = r.bodyText) ∧
    (∀ json result s, r.parsed = some json → json.get "result" = some result →
      result.get "response" = some (Json.str s) → interpretResponse r = s) ∧
    (∀ json result, r.parsed = some json → json.get "result" = some result →
      (result.get "response").bind Json.asStr = none →
      interpretResponse r = "AI Response: " ++ result.serialize) ∧
    (∀ json, r.parsed = some json → json.get "result" = none →
      interpretResponse r = "Full API Response: " ++ json.serialize) ∧
    (∀ env : Env, env.cloudflare_account_id.isSome → env.cloudflare_api_token.isSome →
      (get_ai_response env (FetchOutcome.response r)).result =
        Except.ok (interpretResponse r)) := by
  refine ⟨?_, ?_, ?_, ?_, ?_⟩
  · intro hp
    simp [interpretResponse, h, hp]
  · intro json result s hp hr hresp
    simp [interpretResponse, h, hp, hr, hresp, Json.asStr]
  · intro json result hp hr hb
    simp [interpretResponse, h, hp, hr, hb]
  · intro json hp hr
    simp [interpretResponse, h, hp, hr]
  · intro env hacc htok
    rcases env with ⟨acc, tok⟩
    rcases Option.isSome_iff_exists.mp hacc with ⟨a, rfl⟩
    rcases Option.isSome_iff_exists.mp htok with ⟨b, rfl⟩
    rfl

theorem interpret_200_fallback_witness :
    interpretResponse ⟨200, "not json", none⟩ = "not json" :=
  (interpret_200_fallback ⟨200, "not json", none⟩ rfl).1 rfl

/-- C3: for every upstream response with status different from 200, the
interpreter returns exactly
`API request failed with status <code>: <bodyText>`. -/
theorem interpret_non_success (r : UpstreamResponse) (h : r.status_code ≠ 200) :
    interpretResponse r =
      "API request failed with status " ++ toString r.status_code ++ ": " ++ r.bodyText := by
  simp [interpretResponse, h]

theorem interpret_non_success_witness :
    interpretResponse ⟨500, "boom", none⟩ =
      "API request failed with status 500: boom" :=
  (interpret_non_success ⟨500, "boom", none⟩ (by decide)).trans (by decide)

/-- C4: when the account-identifier key or the API-token key is absent,
the relay short-circuits with zero upstream network calls and returns the
corresponding `Error: <KEY> environment variable not set` text as a
success value. -/
theorem missing_credential_short_circuit (env : Env) (fetch : FetchOutcome) :
    ((env.cloudflare_account_id = none ∨ env.cloudflare_api_token = none) →
      (get_ai_response env fetch).networkCalls = 0 ∧
      ∃ msg, (get_ai_response env fetch).result = Except.ok msg) ∧
    (env.cloudflare_account_id = none →
      get_ai_response env fetch =
        ⟨Except.ok "Error: CLOUDFLARE_ACCOUNT_ID environment variable not set", 0⟩) ∧
    (∀ a, env.cloudflare_account_id = some a → env.cloudflare_api_token = none →
      get_ai_response env fetch =
        ⟨Except.ok "Error: CLOUDFLARE_API_TOKEN environment variable not set", 0⟩) := by
  rcases env with ⟨acc, tok⟩
  refine ⟨?_, ?_, ?_⟩
  · rintro (rfl | rfl)
    · exact ⟨rfl, _, rfl⟩
    · cases acc with
      | none => exact ⟨rfl, _, rfl⟩
      | some a => exact ⟨rfl, _, rfl⟩
  · rintro rfl
    rfl
  · rintro a rfl rfl
    rfl

theorem missing_credential_short_circuit_witness :
    get_ai_response ⟨none, some "tok"⟩ FetchOutcome.transportError =
      ⟨Except.ok "Error: CLOUDFLARE_ACCOUNT_ID environment variable not set", 0⟩ :=
  (missing_credential_short_circuit ⟨none, some "tok"⟩ FetchOutcome.transportError).2.1 rfl

/-- C5: every recoverable failure mode (missing credential, any upstream
response of any status or body) still yields a 200 `text/event-stream`
response whose body is the framed completion text; an error propagates
out of the handler only for a transport-level fault of the upstream call,
with both credentials present. -/
theorem relay_recoverable_always_200 (env : Env) (fetch : FetchOutcome) :
    ((env.cloudflare_account_id = none ∨ env.cloudflare_api_token = none ∨
        (∃ r, fetch = FetchOutcome.response r)) →
      ∃ t, (get_ai_response env fetch).result = Except.ok t ∧
        stream_ai_response env fetch =
          Except.ok ⟨200, "text/event-stream", framedBody t⟩) ∧
    (∀ e, stream_ai_response env fetch = Except.error e →
      fetch = FetchOutcome.transportError ∧
      env.cloudflare_account_id.isSome ∧ env.cloudflare_api_token.isSome) := by
  rcases env with ⟨acc, tok⟩
  constructor
  · intro hrec
    cases acc with
    | none => exact ⟨_, rfl, rfl⟩
    | some a =>
      cases tok with
      | none => exact ⟨_, rfl, rfl⟩
      | some b =>
        cases fetch with
        | transportError =>
          rcases hrec with h | h | ⟨r, hr⟩
          · exact absurd h (by simp)
          · exact absurd h (by simp)
          · exact absurd hr (by simp)
        | response r => exact ⟨_, rfl, rfl⟩
  · intro e he
    cases acc with
    | none => exact absurd he (by simp [stream_ai_response, get_ai_response])
    | some a =>
      cases tok with
      | none => exact absurd he (by simp [stream_ai_response, get_ai_response])
      | some b =>
        cases fetch with
        | transportError => exact ⟨rfl, rfl, rfl⟩
        | response r =>
          exact absurd he (by simp [stream_ai_response, get_ai_response])

theorem relay_recoverable_always_200_witness :
    ∃ t, (get_ai_response ⟨some "id", some "tok"⟩
        (FetchOutcome.response ⟨500, "boom", none⟩)).result = Except.ok t ∧
      stream_ai_response ⟨some "id", some "tok"⟩
          (FetchOutcome.response ⟨500, "boom", none⟩) =
        Except.ok ⟨200, "text/event-stream", framedBody t⟩ :=
  (relay_recoverable_always_200 ⟨some "id", some "tok"⟩
      (FetchOutcome.response ⟨500, "boom", none⟩)).1 (Or.inr (Or.inr ⟨_, rfl⟩))

end Relay

namespace Relay

/-- C7 counterexample: with both credentials set and an upstream 200
response whose body is the empty string (which serde fails to parse), the
verbatim-passthrough arm hands the framer the empty completion text, so
the produced CompletionText is not always non-empty. -/
theorem completion_text_empty_cex :
    ¬ ∀ (env : Env) (fetch : FetchOutcome) (t : String),
        (get_ai_response env fetch).result = Except.ok t → t ≠ "" := by
  intro hclaim
  exact hclaim ⟨some "acc", some "tok"⟩
    (FetchOutcome.response ⟨200, "", none⟩) "" rfl rfl

/-- C7 amended: every CompletionText produced by `get_ai_response` is
non-empty except in exactly two cases, both on an upstream 200 response:
the verbatim passthrough of an unparsable empty body, and the direct
extraction of an empty string `result.response` field. -/
theorem completion_text_nonempty_amended (env : Env) (fetch : FetchOutcome)
    (t : String) (hok : (get_ai_response env fetch).result = Except.ok t)
    (hempty : t = "") :
    ∃ r, fetch = FetchOutcome.response r ∧ r.status_code = 200 ∧
      ((r.parsed = none ∧ r.bodyText = "") ∨
        (∃ json result, r.parsed = some json ∧ json.get "result" = some result ∧
          (result.get "response").bind Json.asStr = some "")) := by
  subst hempty
  rcases env with ⟨acc, tok⟩
  cases acc with
  | none =>
    simp only [get_ai_response, Except.ok.injEq] at hok
    exact absurd hok (by decide)
  | some a =>
    cases tok with
    | none =>
      simp only [get_ai_response, Except.ok.injEq] at hok
      exact absurd hok (by decide)
    | some b =>
      cases fetch with
      | transportError => simp [get_ai_response] at hok
      | response r =>
        simp only [get_ai_response, Except.ok.injEq] at hok
        refine ⟨r, rfl, ?_, ?_⟩
        · by_contra h200
          rw [interpret_non_success r h200] at hok
          exact append_ne_empty_of_left _ _
            (data_append_ne_nil _ _ (data_append_ne_nil _ _ (by decide))) hok
        · by_cases h200 : r.status_code = 200
          · rcases hp : r.parsed with _ | json
            · left
              simp only [interpretResponse, h200, if_true, hp] at hok
              exact ⟨rfl, hok⟩
            · right
              rcases hr : json.get "result" with _ | result
              · simp only [interpretResponse, h200, if_true, hp, hr] at hok
                exact absurd hok (append_ne_empty_of_left _ _ (by decide))
              · rcases hb : (result.get "response").bind Json.asStr with _ | s
                · simp only [interpretResponse, h200, if_true, hp, hr, hb] at hok
                  exact absurd hok (append_ne_empty_of_left _ _ (by decide))
                · simp only [interpretResponse, h200, if_true, hp, hr, hb] at hok
                  subst hok
                  exact ⟨json, result, rfl, hr, hb⟩
          · rw [interpret_non_success r h200] at hok
            exact absurd hok (append_ne_empty_of_left _ _
              (data_append_ne_nil _ _ (data_append_ne_nil _ _ (by decide))))

theorem completion_text_nonempty_amended_witness :
    ∃ r, FetchOutcome.response ⟨200, "", none⟩ = FetchOutcome.response r ∧
      r.status_code = 200 ∧
      ((r.parsed = none ∧ r.bodyText = "") ∨
        (∃ json result, r.parsed = some json ∧ json.get "result" = some result ∧
          (result.get "response").bind Json.asStr = some "")) :=
  completion_text_nonempty_amended ⟨some "acc", some "tok"⟩
    (FetchOutcome.response ⟨200, "", none⟩) "" rfl rfl

/-- C8: the generic error translator produces a JSON body
`{error, message, status}` preserving the original status code, with the
specific label/description pairs for 404, 500 and 400, and
`Error`/`An error occurred` for every other status. -/
theorem generic_error_handler_spec (status_code : Nat) :
    (generic_error_handler status_code).1 = status_code ∧
    (status_code = 404 → (generic_error_handler status_code).2 =
      Json.obj [("error", Json.str "Not Found"),
        ("message", Json.str "The requested resource was not found"),
        ("status", Json.num (Int.ofNat status_code))]) ∧
    (status_code = 500 → (generic_error_handler status_code).2 =
      Json.obj [("error", Json.str "Internal Server Error"),
        ("message", Json.str "An unexpected error occurred"),
        ("status", Json.num (Int.ofNat status_code))]) ∧
    (status_code = 400 → (generic_error_handler status_code).2 =
      Json.obj [("error", Json.str "Bad Request"),
        ("message", Json.str "The request was invalid"),
        ("status", Json.num (Int.ofNat status_code))]) ∧
    (status_code ≠ 404 → status_code ≠ 500 → status_code ≠ 400 →
      (generic_error_handler status_code).2 =
        Json.obj [("error", Json.str "Error"),
          ("message", Json.str "An error occurred"),
          ("status", Json.num (Int.ofNat status_code))]) := by
  refine ⟨rfl, ?_, ?_, ?_, ?_⟩
  · rintro rfl; rfl
  · rintro rfl; rfl
  · rintro rfl; rfl
  · intro h404 h500 h400
    simp [generic_error_handler, h404, h500, h400]

theorem generic_error_handler_spec_witness :
    (generic_error_handler 404).2 =
      Json.obj [("error", Json.str "Not Found"),
        ("message", Json.str "The requested resource was not found"),
        ("status", Json.num (Int.ofNat 404))] ∧
    (generic_error_handler 418).2 =
      Json.obj [("error", Json.str "Error"),
        ("message", Json.str "An error occurred"),
        ("status", Json.num (Int.ofNat 418))] :=
  ⟨(generic_error_handler_spec 404).2.1 rfl,
   (generic_error_handler_spec 418).2.2.2.2 (by decide) (by decide) (by decide)⟩

end Relay
